import Mathlib

/-!
# go-performance-service: the HTTP handlers of `services/go-services/main.go`

A shallow embedding of the request handlers over an explicit model of the
key-value store they talk to, and the properties of the handlers proved on it.

* Numbers: `int64` values are integers, `float64` values are canonical dyadic
  numbers `m * 2^e`, decimal literals of a JSON text are `m * 10^e`.
* JSON: a JSON text is identified with its document (`Json`); `marshal` and
  `unmarshal` are `encoding/json` on `map[string]interface{}` data, and
  `Json.render` spells a document the way `encoding/json` writes it.
* Store: keys hold a string, a hash or a list, with an optional time to live;
  the commands are the ones the handlers issue (GET, SET, EXISTS, HSET, LPUSH, DEL).
* Handlers: one function per handler of `main.go`, from the request and the store
  before it to the response and the store after it.
-/

namespace GoServices

/-! ## Numbers -/

/-- Floor of the binary logarithm, by repeated halving (`fuel` bounds the number of halvings). -/
def log2Fuel : Nat → Nat → Nat
  | 0, _ => 0
  | fuel + 1, n => if n < 2 then 0 else log2Fuel fuel (n / 2) + 1

/-- Floor of the binary logarithm of `n` (0 for `n = 0`). -/
def log2 (n : Nat) : Nat := log2Fuel n n

/-- A finite float64 value `m * 2^e`, kept canonical: `m` is odd, or `m = 0` and `e = 0`
(the two zeros of float64 are not told apart). -/
structure F64 where
  m : Int
  e : Int
deriving DecidableEq, Repr

/-- A decimal number literal `m * 10^e` of a JSON text. -/
structure Dec where
  m : Int
  e : Int
deriving DecidableEq, Repr

/-- Strip factors of two from the significand (at most `fuel` of them). -/
def F64.strip : Nat → Int → Int → F64
  | 0, m, e => ⟨m, e⟩
  | fuel + 1, m, e => if m % 2 = 0 then F64.strip fuel (m / 2) (e + 1) else ⟨m, e⟩

/-- The canonical form of `m * 2^e`. -/
def F64.normalize (m e : Int) : F64 :=
  if m = 0 then ⟨0, 0⟩ else F64.strip (log2 m.natAbs + 1) m e

/-- The number `n` as a canonical dyadic: the float64 holding `n` when `n` is representable. -/
def F64.ofInt (n : Int) : F64 := F64.normalize n 0

/-- Floor of the binary logarithm of `N / D` (`N`, `D` positive). -/
def binade (N D : Nat) : Int :=
  let e0 : Int := (log2 N : Int) - (log2 D : Int)
  if D * 2 ^ e0.toNat ≤ N * 2 ^ (-e0).toNat then e0 else e0 - 1

/-- Nearest float64 to `± N / D`, ties to even, subnormals included; `none` when the
result is out of range (strconv.ParseFloat reports a range error). -/
def roundRatio (neg : Bool) (N D : Nat) : Option F64 :=
  if N = 0 then some ⟨0, 0⟩ else
  let x : Int := max (binade N D - 52) (-1074)
  let num := N * 2 ^ (-x).toNat
  let den := D * 2 ^ x.toNat
  let q := num / den
  let rem := num % den
  let r := if 2 * rem < den then q else if den < 2 * rem then q + 1
    else if q % 2 = 0 then q else q + 1
  if 1024 ≤ (log2 r : Int) + x then none
  else some (F64.normalize (if neg then -(r : Int) else (r : Int)) x)

/-- The float64 a decimal literal reads as (strconv.ParseFloat with 64 bits, which
json.Unmarshal uses for a number stored into an `interface{}`). -/
def Dec.toF64 (d : Dec) : Option F64 :=
  if 0 ≤ d.e then roundRatio (decide (d.m < 0)) (d.m.natAbs * 10 ^ d.e.toNat) 1
  else roundRatio (decide (d.m < 0)) d.m.natAbs (10 ^ (-d.e).toNat)

/-- The decimal literal with exactly the value of `f`. -/
def F64.exactDec (f : F64) : Dec :=
  if 0 ≤ f.e then ⟨f.m * 2 ^ f.e.toNat, 0⟩ else ⟨f.m * 5 ^ (-f.e).toNat, f.e⟩

/-- Floor of the decimal logarithm of `N / D` (`N`, `D` positive), searched downwards from `hi`. -/
def decade : Nat → Int → Nat → Nat → Int
  | 0, hi, _, _ => hi
  | fuel + 1, hi, N, D =>
    if D * 10 ^ hi.toNat ≤ N * 10 ^ (-hi).toNat then hi else decade fuel (hi - 1) N D

/-- The two `n`-digit decimals around `N / D`: the digits of the lower one, of the upper
one, their common exponent, and whether the lower one is at least as near. -/
def digitsAt (n : Nat) (N D : Nat) : Nat × Nat × Int × Bool :=
  let p := decade 1500 (max ((log2 N : Int) - (log2 D : Int) + 1) 0) N D
  let x : Int := p - (n : Int) + 1
  let num := N * 10 ^ (-x).toNat
  let den := D * 10 ^ x.toNat
  (num / den, num / den + 1, x, decide (2 * (num % den) ≤ den))

/-- Of the two decimals `dlo` and `dhi` around `f`, the one that reads back as `f`, the
nearer one when both do, and `rest` when neither does. -/
def F64.pick (f : F64) (dlo dhi : Dec) (lowNear : Bool) (rest : Dec) : Dec :=
  let okLo := decide (dlo.toF64 = some f)
  let okHi := decide (dhi.toF64 = some f)
  if okLo && (lowNear || !okHi) then dlo
  else if okHi then dhi
  else rest

/-- Shortest decimal that reads back as `f`, the nearest to `f` among those of that length
(the shortest formatting of strconv); `fuel` counts the lengths still to try, `n` is the
length tried now. When 17 digits do not do, the exact decimal is taken. -/
def F64.shortestFrom : Nat → Nat → F64 → Dec
  | 0, _, f => f.exactDec
  | fuel + 1, n, f =>
    let N := if 0 ≤ f.e then f.m.natAbs * 2 ^ f.e.toNat else f.m.natAbs
    let D := if 0 ≤ f.e then 1 else 2 ^ (-f.e).toNat
    let (lo, hi, x, lowNear) := digitsAt n N D
    let s : Int := if f.m < 0 then -1 else 1
    F64.pick f ⟨s * lo, x⟩ ⟨s * hi, x⟩ lowNear (F64.shortestFrom fuel (n + 1) f)

/-- The literal encoding/json writes for a float64. -/
def F64.shortest (f : F64) : Dec :=
  if f.m = 0 then ⟨0, 0⟩ else F64.shortestFrom 17 1 f

/-- A value of the model is a float64: reading its exact decimal gives it back. -/
def F64.IsFloat64 (f : F64) : Prop := f.exactDec.toF64 = some f

instance (f : F64) : Decidable f.IsFloat64 := by
  unfold F64.IsFloat64; infer_instance

/-- Go's conversion `int64(f)` of a float64: the fraction is dropped; a value outside
int64 gives the smallest int64, as the amd64 conversion instruction does. -/
def F64.toInt64 (f : F64) : Int :=
  let t : Int := if 0 ≤ f.e then f.m * 2 ^ f.e.toNat else Int.tdiv f.m (2 ^ (-f.e).toNat)
  if -2 ^ 63 ≤ t ∧ t < 2 ^ 63 then t else -2 ^ 63

/-- Two's complement wrap-around of int64 arithmetic. -/
def wrap64 (x : Int) : Int := (x + 2 ^ 63) % 2 ^ 64 - 2 ^ 63

/-- Does the float64 `f` hold the integer `n`. -/
def F64.holdsInt (f : F64) (n : Int) : Prop := 0 ≤ f.e ∧ f.m * 2 ^ f.e.toNat = n

instance (f : F64) (n : Int) : Decidable (f.holdsInt n) := by
  unfold F64.holdsInt; infer_instance

/-! ## JSON -/

/-- A JSON text, identified with the document it spells. -/
inductive Json where
  | null
  | bool (b : Bool)
  | num (d : Dec)
  | str (s : String)
  | arr (xs : List Json)
  | obj (kvs : List (String × Json))
deriving Repr

/-- A Go value as encoding/json sees it: what an `interface{}` holds after decoding
(nil, bool, float64, string, slice, map) and the `int64` fields the handlers add.
A map is given by its members in key order, the order encoding/json writes them in. -/
inductive GoVal where
  | null
  | bool (b : Bool)
  | int (n : Int)
  | float (f : F64)
  | str (s : String)
  | arr (xs : List GoVal)
  | obj (kvs : List (String × GoVal))
deriving Repr

/-- The member `k` of a map (`none` for a missing member and for a value that is no map). -/
def GoVal.get (v : GoVal) (k : String) : Option GoVal :=
  match v with
  | .obj kvs => kvs.lookup k
  | _ => none

mutual
/-- The text json.Marshal writes for a value. -/
def marshal : GoVal → Json
  | .null => .null
  | .bool b => .bool b
  | .int n => .num ⟨n, 0⟩
  | .float f => .num f.shortest
  | .str s => .str s
  | .arr xs => .arr (marshalList xs)
  | .obj kvs => .obj (marshalFields kvs)
/-- The elements of a slice, marshalled. -/
def marshalList : List GoVal → List Json
  | [] => []
  | x :: xs => marshal x :: marshalList xs
/-- The members of a map, marshalled. -/
def marshalFields : List (String × GoVal) → List (String × Json)
  | [] => []
  | (k, v) :: r => (k, marshal v) :: marshalFields r
end

mutual
/-- The value json.Unmarshal stores into an `interface{}`: every number becomes a
float64; a number out of the float64 range is reported as an error and left nil. -/
def unmarshal : Json → GoVal
  | .null => .null
  | .bool b => .bool b
  | .num d =>
    match d.toF64 with
    | some f => .float f
    | none => .null
  | .str s => .str s
  | .arr xs => .arr (unmarshalList xs)
  | .obj kvs => .obj (unmarshalFields kvs)
/-- The elements of an array, decoded. -/
def unmarshalList : List Json → List GoVal
  | [] => []
  | x :: xs => unmarshal x :: unmarshalList xs
/-- The members of an object, decoded. -/
def unmarshalFields : List (String × Json) → List (String × GoVal)
  | [] => []
  | (k, v) :: r => (k, unmarshal v) :: unmarshalFields r
end

mutual
/-- The value came out of a JSON decoder: its numbers are float64 values, none an int64. -/
def GoVal.Decoded : GoVal → Prop
  | .null => True
  | .bool _ => True
  | .int _ => False
  | .float f => f.IsFloat64
  | .str _ => True
  | .arr xs => GoVal.DecodedList xs
  | .obj kvs => GoVal.DecodedFields kvs
/-- Every element came out of a JSON decoder. -/
def GoVal.DecodedList : List GoVal → Prop
  | [] => True
  | x :: xs => GoVal.Decoded x ∧ GoVal.DecodedList xs
/-- Every member came out of a JSON decoder. -/
def GoVal.DecodedFields : List (String × GoVal) → Prop
  | [] => True
  | (_, v) :: r => GoVal.Decoded v ∧ GoVal.DecodedFields r
end

/-! ### The characters of a JSON text -/

/-- Lower-case hexadecimal digit. -/
def hexDigit (n : Nat) : Char := if n < 10 then Char.ofNat (48 + n) else Char.ofNat (87 + n)

/-- One character of a string as encoding/json writes it (HTML escaping on, as
json.Marshal has it): quote and backslash behind a backslash, the short escapes for
backspace, form feed, newline, return and tab, and a u-escape for the other control
characters, for the angle brackets and the ampersand, and for U+2028 and U+2029. -/
def escapeChar (c : Char) : List Char :=
  if c.toNat = 34 then "\\\"".data
  else if c.toNat = 92 then "\\\\".data
  else if c.toNat = 8 then "\\b".data
  else if c.toNat = 12 then "\\f".data
  else if c.toNat = 10 then "\\n".data
  else if c.toNat = 13 then "\\r".data
  else if c.toNat = 9 then "\\t".data
  else if c.toNat < 32 ∨ c.toNat = 60 ∨ c.toNat = 62 ∨ c.toNat = 38 then
    "\\u00".data ++ [hexDigit (c.toNat / 16), hexDigit (c.toNat % 16)]
  else if c.toNat = 8232 then "\\u2028".data
  else if c.toNat = 8233 then "\\u2029".data
  else [c]

/-- The characters of a string, escaped. -/
def escapeChars : List Char → List Char
  | [] => []
  | c :: cs => escapeChar c ++ escapeChars cs

/-- A string literal of a JSON text. -/
def quote (s : String) : List Char := "\"".data ++ escapeChars s.data ++ "\"".data

/-- Move trailing zeros of the digits into the exponent. -/
def stripZeros : Nat → Nat → Int → Nat × Int
  | 0, m, e => (m, e)
  | fuel + 1, m, e => if m % 10 = 0 then stripZeros fuel (m / 10) (e + 1) else (m, e)

/-- The characters of a number as encoding/json writes it: plain decimal form, and the
exponent form (with the exponent in as few digits as it takes) below 1e-6 and from
1e21 on. -/
def Dec.render (d : Dec) : List Char :=
  if d.m = 0 then "0".data else
  let (m, e) := stripZeros (log2 d.m.natAbs + 1) d.m.natAbs d.e
  let ds := (toString m).data
  let nd := ds.length
  let dp : Int := (nd : Int) + e
  let sign := if d.m < 0 then "-".data else []
  if dp ≤ -6 ∨ 22 ≤ dp then
    let frac := if nd = 1 then [] else ".".data ++ ds.drop 1
    sign ++ ds.take 1 ++ frac ++ "e".data ++ (if dp - 1 < 0 then "-".data else "+".data)
      ++ (toString (dp - 1).natAbs).data
  else if dp ≤ 0 then sign ++ "0.".data ++ List.replicate (-dp).toNat (Char.ofNat 48) ++ ds
  else if (nd : Int) ≤ dp then sign ++ ds ++ List.replicate (dp - nd).toNat (Char.ofNat 48)
  else sign ++ ds.take dp.toNat ++ ".".data ++ ds.drop dp.toNat

mutual
/-- The characters of a JSON text, as encoding/json writes it (no white space). -/
def Json.render : Json → List Char
  | .null => "null".data
  | .bool true => "true".data
  | .bool false => "false".data
  | .num d => d.render
  | .str s => quote s
  | .arr [] => "[]".data
  | .arr (x :: xs) => "[".data ++ Json.render x ++ Json.renderTail xs ++ "]".data
  | .obj [] => "\x7b\x7d".data
  | .obj ((k, v) :: r) =>
    "\x7b".data ++ quote k ++ ":".data ++ Json.render v ++ Json.renderFieldsTail r ++ "\x7d".data
/-- The elements after the first, each behind a comma. -/
def Json.renderTail : List Json → List Char
  | [] => []
  | x :: xs => ",".data ++ Json.render x ++ Json.renderTail xs
/-- The members after the first, each behind a comma. -/
def Json.renderFieldsTail : List (String × Json) → List Char
  | [] => []
  | (k, v) :: r => ",".data ++ quote k ++ ":".data ++ Json.render v ++ Json.renderFieldsTail r
end

/-- A byte string held by the store or by a Go string. -/
inductive Bytes where
  /-- a JSON text, as encoding/json writes it -/
  | json (d : Json)
  /-- bytes that are no JSON text -/
  | raw (s : String)
deriving Repr

/-- The Go string made of the bytes. -/
def Bytes.text : Bytes → String
  | .json d => String.mk d.render
  | .raw s => s

/-- What `json.Unmarshal(data, &m)` leaves in a nil `m` of type
`map[string]interface{}` when its error is dropped: the decoded members of an
object, and nil for `null` and for whatever does not decode into a map. -/
def decodeMap : Bytes → GoVal
  | .json (.obj kvs) => .obj (unmarshalFields kvs)
  | _ => .null

/-! ### Request bodies -/

mutual
/-- Every number of the text reads as a float64 (none is out of its range). -/
def Json.inRange : Json → Bool
  | .null => true
  | .bool _ => true
  | .num d => d.toF64.isSome
  | .str _ => true
  | .arr xs => Json.inRangeList xs
  | .obj kvs => Json.inRangeFields kvs
/-- Every number of the elements reads as a float64. -/
def Json.inRangeList : List Json → Bool
  | [] => true
  | x :: xs => Json.inRange x && Json.inRangeList xs
/-- Every number of the members reads as a float64. -/
def Json.inRangeFields : List (String × Json) → Bool
  | [] => true
  | (_, v) :: r => Json.inRange v && Json.inRangeFields r
end

/-- Put a member into a map, which is kept in key order; a member that has the same key
is replaced. -/
def mapInsert (k : String) (v : GoVal) : List (String × GoVal) → List (String × GoVal)
  | [] => [(k, v)]
  | (k2, v2) :: r =>
    if k < k2 then (k, v) :: (k2, v2) :: r
    else if k = k2 then (k, v) :: r
    else (k2, v2) :: mapInsert k v r

mutual
/-- The value the JSON decoder builds for a part of a request body, whose objects may
spell their members in any order and repeat a key: as `unmarshal`, with the members of
a map set one after the other, so that the last member of a key is the one kept. -/
def bindValue : Json → GoVal
  | .null => .null
  | .bool b => .bool b
  | .num d =>
    match d.toF64 with
    | some f => .float f
    | none => .null
  | .str s => .str s
  | .arr xs => .arr (bindList xs)
  | .obj kvs => .obj (bindFields [] kvs)
/-- The elements of an array of a request body, decoded. -/
def bindList : List Json → List GoVal
  | [] => []
  | x :: xs => bindValue x :: bindList xs
/-- The members of an object of a request body, set into the map `acc` in turn. -/
def bindFields (acc : List (String × GoVal)) : List (String × Json) → List (String × GoVal)
  | [] => acc
  | (k, v) :: r => bindFields (mapInsert k (bindValue v) acc) r
end

/-- What a key of the store holds. -/
inductive RVal where
  | str (b : Bytes)
  | hash (fields : List (String × String))
  | list (items : List String)
deriving Repr

/-- A key of the store: its value and the time it has left, in milliseconds
(`none`: the key does not expire). -/
structure Entry where
  val : RVal
  ttl : Option Nat
deriving Repr

/-- The keys of the store. -/
abbrev Store := String → Option Entry

/-- The store with no key. -/
def Store.empty : Store := fun _ => none

/-- The store with `key` bound to `e`. -/
def Store.put (db : Store) (key : String) (e : Entry) : Store :=
  fun k => if k = key then some e else db k

/-- The store without `key`. -/
def Store.remove (db : Store) (key : String) : Store :=
  fun k => if k = key then none else db k

/-- The errors of a store command: the key is missing (redis.Nil), the key holds a
value of another kind (WRONGTYPE), the server was not reached. -/
inductive RedisErr where
  | nil
  | wrongType
  | conn
deriving DecidableEq, Repr

/-- A second, a millisecond, an hour as time.Duration (nanoseconds). -/
def second : Int := 1000000000
/-- A millisecond as time.Duration. -/
def millisecond : Int := 1000000
/-- An hour as time.Duration. -/
def hour : Int := 3600 * second

/-- The time to live `Set` of go-redis asks the server for, in milliseconds, for an
expiration `exp`: a positive one is sent in milliseconds (PX) when it is below a second
or no whole number of seconds, in seconds (EX) otherwise; the expiration -1 (KeepTTL)
keeps `old`, the time the key had; every other one sends no expiry. -/
def expiryMs (old : Option Nat) (exp : Int) : Option Nat :=
  if 0 < exp then
    if exp < second ∨ exp % second ≠ 0 then
      some (if exp < millisecond then 1 else (exp / millisecond).toNat)
    else some ((exp / second).toNat * 1000)
  else if exp = -1 then old
  else none

/-- GET: the string under `key`. -/
def redisGet (up : Bool) (db : Store) (key : String) : Except RedisErr Bytes :=
  if !up then .error .conn else
  match db key with
  | none => .error .nil
  | some ⟨.str b, _⟩ => .ok b
  | some _ => .error .wrongType

/-- SET with an expiration: whatever `key` held is replaced. -/
def redisSet (up : Bool) (db : Store) (key : String) (b : Bytes) (exp : Int) :
    Option RedisErr × Store :=
  if !up then (some .conn, db) else
  (none, db.put key ⟨.str b, expiryMs ((db key).bind Entry.ttl) exp⟩)

/-- EXISTS: 1 when `key` is there, whatever it holds. -/
def redisExists (up : Bool) (db : Store) (key : String) : Except RedisErr Nat :=
  if !up then .error .conn else
  match db key with
  | none => .ok 0
  | some _ => .ok 1

/-- Set one field of a hash. -/
def hashPut : List (String × String) → String → String → List (String × String)
  | [], f, v => [(f, v)]
  | (g, w) :: r, f, v => if g = f then (g, v) :: r else (g, w) :: hashPut r f v

/-- Set the fields `fvs` of a hash, in order. -/
def hashPutAll (h : List (String × String)) : List (String × String) → List (String × String)
  | [] => h
  | (f, v) :: r => hashPutAll (hashPut h f v) r

/-- HSET: the fields are set in the hash under `key`, which is created when `key` is
missing; a key that holds a string or a list is left as it is (WRONGTYPE). The time the
key has left does not change. -/
def redisHSet (up : Bool) (db : Store) (key : String) (fvs : List (String × String)) :
    Option RedisErr × Store :=
  if !up then (some .conn, db) else
  match db key with
  | none => (none, db.put key ⟨.hash (hashPutAll [] fvs), none⟩)
  | some ⟨.hash h, t⟩ => (none, db.put key ⟨.hash (hashPutAll h fvs), t⟩)
  | some _ => (some .wrongType, db)

/-- LPUSH: `v` goes to the head of the list under `key`, which is created when `key` is
missing; a key that holds a string or a hash is left as it is (WRONGTYPE). -/
def redisLPush (up : Bool) (db : Store) (key : String) (v : String) :
    Option RedisErr × Store :=
  if !up then (some .conn, db) else
  match db key with
  | none => (none, db.put key ⟨.list [v], none⟩)
  | some ⟨.list xs, t⟩ => (none, db.put key ⟨.list (v :: xs), t⟩)
  | some _ => (some .wrongType, db)

/-- DEL: the number of keys removed. -/
def redisDel (up : Bool) (db : Store) (key : String) : Except RedisErr Nat × Store :=
  if !up then (.error .conn, db) else
  match db key with
  | none => (.ok 0, db)
  | some _ => (.ok 1, db.remove key)

/-! ## The handlers -/

/-- What a request finds around it: the clock (`time.Now()`: seconds since the epoch
and the nanoseconds within the second; a request is served within one instant of it),
and for each store command the handler issues, the first being number 0, whether it
reaches the server. -/
structure Env where
  unix : Int
  nsec : Nat
  up : Nat → Bool

/-- A response: its status code and the value written as its JSON body. -/
structure Resp where
  code : Nat
  body : GoVal
deriving Repr

/-- The body of a prepare request, bound. -/
structure FileUploadRequest where
  FileName : String
  FileSize : Int
  FileType : String
deriving Repr

/-- The body of a create request, bound; `Parameters` is `none` for a nil map. -/
structure ProcessingRequest where
  JobID : String
  JobType : String
  Parameters : Option (List (String × GoVal))
deriving Repr

/-- A `map[string]interface{}` as a value: nil, or the map. -/
def mapVal : Option (List (String × GoVal)) → GoVal
  | none => .null
  | some kvs => .obj kvs

/-- The body `gin.H` with the one member `error`. -/
def errorBody (msg : String) : GoVal := .obj [("error", .str msg)]

/-- The job ID `job_<seconds>_<nanoseconds>` of generateJobID. -/
def generateJobID (env : Env) : String :=
  "job_" ++ toString env.unix ++ "_" ++ toString env.nsec

/-- Handler prepareFileUpload; `body` is what ShouldBindJSON gives: the bound request or
the error. The result of the SET is dropped. -/
def prepareFileUpload (env : Env) (body : Except String FileUploadRequest) (db : Store) :
    Resp × Store :=
  match body with
  | .error msg => (⟨400, errorBody msg⟩, db)
  | .ok req =>
    let jobID := generateJobID env
    let uploadURL := "/upload/" ++ jobID
    let uploadData : GoVal := .obj [
      ("created", .int env.unix),
      ("filename", .str req.FileName),
      ("filesize", .int req.FileSize),
      ("filetype", .str req.FileType),
      ("status", .str "prepared")]
    let data := marshal uploadData
    let db1 := (redisSet (env.up 0) db ("upload:" ++ jobID) (.json data) (24 * hour)).2
    (⟨200, .obj [
      ("expires_at", .int (env.unix + 86400)),
      ("job_id", .str jobID),
      ("upload_url", .str uploadURL)]⟩, db1)

/-- Handler completeFileUpload; `jobID` is the form field `job_id` (empty when the field
is missing). The result of the HSET is dropped. -/
def completeFileUpload (env : Env) (jobID : String) (db : Store) : Resp × Store :=
  if jobID = "" then (⟨400, errorBody "job_id required"⟩, db) else
  let key := "upload:" ++ jobID
  match redisExists (env.up 0) db key with
  | .error _ => (⟨404, errorBody "Upload job not found"⟩, db)
  | .ok 0 => (⟨404, errorBody "Upload job not found"⟩, db)
  | .ok _ =>
    let db1 := (redisHSet (env.up 1) db key
      [("status", "completed"), ("completed_at", toString env.unix)]).2
    (⟨200, .obj [("job_id", .str jobID), ("status", .str "completed")]⟩, db1)

/-- Handler getUploadStatus; `jobID` is the path parameter. -/
def getUploadStatus (env : Env) (jobID : String) (db : Store) : Resp × Store :=
  let key := "upload:" ++ jobID
  match redisGet (env.up 0) db key with
  | .error _ => (⟨404, errorBody "Upload job not found"⟩, db)
  | .ok data => (⟨200, decodeMap data⟩, db)

/-- Handler createProcessingJob. The results of the SET and of the LPUSH are dropped. -/
def createProcessingJob (env : Env) (body : Except String ProcessingRequest) (db : Store) :
    Resp × Store :=
  match body with
  | .error msg => (⟨400, errorBody msg⟩, db)
  | .ok req =>
    let jobID := generateJobID env
    let jobData : GoVal := .obj [
      ("created", .int env.unix),
      ("job_id", .str jobID),
      ("job_type", .str req.JobType),
      ("parameters", mapVal req.Parameters),
      ("status", .str "queued")]
    let data := marshal jobData
    let db1 := (redisSet (env.up 0) db ("job:" ++ jobID) (.json data) (48 * hour)).2
    let db2 := (redisLPush (env.up 1) db1 "processing_queue" jobID).2
    (⟨201, .obj [("job_id", .str jobID), ("status", .str "queued")]⟩, db2)

/-- Handler getJobStatus. -/
def getJobStatus (env : Env) (jobID : String) (db : Store) : Resp × Store :=
  let key := "job:" ++ jobID
  match redisGet (env.up 0) db key with
  | .error _ => (⟨404, errorBody "Job not found"⟩, db)
  | .ok data => (⟨200, decodeMap data⟩, db)

/-- Handler cancelJob. The result of the HSET is dropped. -/
def cancelJob (env : Env) (jobID : String) (db : Store) : Resp × Store :=
  let key := "job:" ++ jobID
  match redisExists (env.up 0) db key with
  | .error _ => (⟨404, errorBody "Job not found"⟩, db)
  | .ok 0 => (⟨404, errorBody "Job not found"⟩, db)
  | .ok _ =>
    let db1 := (redisHSet (env.up 1) db key
      [("status", "cancelled"), ("cancelled_at", toString env.unix)]).2
    (⟨200, .obj [("job_id", .str jobID), ("status", .str "cancelled")]⟩, db1)

/-- Handler getCacheValue: the value of the response is the stored string itself. -/
def getCacheValue (env : Env) (key : String) (db : Store) : Resp × Store :=
  match redisGet (env.up 0) db key with
  | .error _ => (⟨404, errorBody "Key not found"⟩, db)
  | .ok value => (⟨200, .obj [("key", .str key), ("value", .str value.text)]⟩, db)

/-- The expiration setCacheValue passes to SET: an hour, or, for a `ttl` member that
is a number, `time.Duration(ttlSeconds) * time.Second`. -/
def cacheTTL (data : List (String × GoVal)) : Int :=
  match data.lookup "ttl" with
  | some (.float ttlSeconds) => wrap64 (ttlSeconds.toInt64 * second)
  | _ => hour

/-- Handler setCacheValue; `body` is what ShouldBindJSON gives for a
`map[string]interface{}`: the members of the body or the error. -/
def setCacheValue (env : Env) (key : String) (body : Except String (List (String × GoVal)))
    (db : Store) : Resp × Store :=
  match body with
  | .error msg => (⟨400, errorBody msg⟩, db)
  | .ok data =>
    let value : GoVal := (data.lookup "value").getD .null
    let ttl := cacheTTL data
    let valueStr := marshal value
    match redisSet (env.up 0) db key (.json valueStr) ttl with
    | (some _, db1) => (⟨500, errorBody "Failed to set value"⟩, db1)
    | (none, db1) => (⟨200, .obj [("key", .str key), ("status", .str "set")]⟩, db1)

/-- Handler deleteCacheValue. -/
def deleteCacheValue (env : Env) (key : String) (db : Store) : Resp × Store :=
  match redisDel (env.up 0) db key with
  | (.error _, db1) => (⟨500, errorBody "Failed to delete key"⟩, db1)
  | (.ok 0, db1) => (⟨404, errorBody "Key not found"⟩, db1)
  | (.ok _, db1) => (⟨200, .obj [("key", .str key), ("status", .str "deleted")]⟩, db1)

/-- Handler compressData. -/
def compressData (db : Store) : Resp × Store :=
  (⟨200, .obj [("message", .str "Compression endpoint - implementation needed")]⟩, db)

/-- Handler resizeImage. -/
def resizeImage (db : Store) : Resp × Store :=
  (⟨200, .obj [("message", .str "Image resize endpoint - implementation needed")]⟩, db)

/-- Handler convertFormat. -/
def convertFormat (db : Store) : Resp × Store :=
  (⟨200, .obj [("message", .str "Format conversion endpoint - implementation needed")]⟩, db)

/-- A request to one of the routes of `/api/v1`, with its path parameter and its body
as bound. -/
inductive Request where
  | uploadPrepare (body : Except String FileUploadRequest)
  | uploadComplete (jobID : String)
  | uploadStatus (jobID : String)
  | jobsCreate (body : Except String ProcessingRequest)
  | jobsGet (jobID : String)
  | jobsDelete (jobID : String)
  | cacheGet (key : String)
  | cachePost (key : String) (body : Except String (List (String × GoVal)))
  | cacheDelete (key : String)
  | compress
  | resizeImage
  | convertFormat

/-- The routes of setupRoutes: the handler a request goes to. -/
def handle (env : Env) (r : Request) (db : Store) : Resp × Store :=
  match r with
  | .uploadPrepare body => prepareFileUpload env body db
  | .uploadComplete jobID => completeFileUpload env jobID db
  | .uploadStatus jobID => getUploadStatus env jobID db
  | .jobsCreate body => createProcessingJob env body db
  | .jobsGet jobID => getJobStatus env jobID db
  | .jobsDelete jobID => cancelJob env jobID db
  | .cacheGet key => getCacheValue env key db
  | .cachePost key body => setCacheValue env key body db
  | .cacheDelete key => deleteCacheValue env key db
  | .compress => compressData db
  | .resizeImage => resizeImage db
  | .convertFormat => convertFormat db

/-- The store after a sequence of requests, each with the surroundings it finds. -/
def run (db : Store) : List (Env × Request) → Store
  | [] => db
  | (env, r) :: rest => run (handle env r db).2 rest

/-! ## Notions the properties are stated in -/

/-- The duration of `f` seconds is `ms` milliseconds. -/
def F64.isMillis (f : F64) (ms : Nat) : Prop :=
  (ms : Int) * 2 ^ (-f.e).toNat = 1000 * f.m * 2 ^ f.e.toNat

instance (f : F64) (ms : Nat) : Decidable (f.isMillis ms) := by
  unfold F64.isMillis; infer_instance

/-- The response of a completion that found the upload record. -/
def completedBody (j : String) : Resp :=
  ⟨200, .obj [("job_id", .str j), ("status", .str "completed")]⟩

/-- The record prepareFileUpload writes. -/
def uploadRecord (env : Env) (req : FileUploadRequest) : GoVal :=
  .obj [
    ("created", .int env.unix),
    ("filename", .str req.FileName),
    ("filesize", .int req.FileSize),
    ("filetype", .str req.FileType),
    ("status", .str "prepared")]

/-- The record createProcessingJob writes. -/
def jobRecord (env : Env) (req : ProcessingRequest) : GoVal :=
  .obj [
    ("created", .int env.unix),
    ("job_id", .str (generateJobID env)),
    ("job_type", .str req.JobType),
    ("parameters", mapVal req.Parameters),
    ("status", .str "queued")]

/-- A key of the form `job:<id>`. -/
def isJobKey (k : String) : Bool := k.data.take 4 == "job:".data

/-- A job record: a string that decodes to a map with the members job_id, job_type,
parameters and created, and with status "queued" or "cancelled". -/
def isJobRecord (e : Entry) : Bool :=
  match e.val with
  | .str b =>
    ((decodeMap b).get "job_id").isSome && ((decodeMap b).get "job_type").isSome &&
    ((decodeMap b).get "parameters").isSome && ((decodeMap b).get "created").isSome &&
    (match (decodeMap b).get "status" with
      | some (.str s) => s == "queued" || s == "cancelled"
      | _ => false)
  | _ => false

/-- Every value under a key `job:<id>` is a job record. -/
def JobKeysOk (db : Store) : Prop :=
  ∀ id e, db ("job:" ++ id) = some e → isJobRecord e = true

/-- A cache request that sets or deletes a key of the form `job:<id>`. -/
def Request.cacheOnJobKey : Request → Bool
  | .cachePost k _ => isJobKey k
  | .cacheDelete k => isJobKey k
  | _ => false

/-! ## Inputs of the examples -/

/-- The surroundings of the examples: every command reaches the store. -/
def sampleEnv : Env := ⟨1700000000, 42, fun _ => true⟩

/-- Surroundings in which no command reaches the store. -/
def downEnv : Env := ⟨1700000000, 42, fun _ => false⟩

/-- A prepare request. -/
def sampleUpload : FileUploadRequest := ⟨"a.png", 1024, "image/png"⟩

/-- A prepare request with a filesize that float64 does not hold: 2^53 + 1. -/
def bigUpload : FileUploadRequest := ⟨"a.bin", 9007199254740993, "application/octet-stream"⟩

/-- The store after the prepare request `sampleUpload`. -/
def sampleStore : Store := (prepareFileUpload sampleEnv (.ok sampleUpload) Store.empty).2

/-- A create request; its parameters are 120, "a.png", 1.5 and a list. -/
def sampleJob : ProcessingRequest :=
  ⟨"", "resize", some [("height", .float ⟨15, 3⟩), ("name", .str "a.png"),
    ("ratio", .float ⟨3, -1⟩), ("tags", .arr [.str "x", .bool true, .null])]⟩

/-- A sequence of requests: a job is created, its status is read, it is cancelled, an
upload is prepared and a cache entry is set. -/
def sampleTrace : List (Env × Request) :=
  [(sampleEnv, .jobsCreate (.ok sampleJob)),
   (sampleEnv, .jobsGet "job_1700000000_42"),
   (sampleEnv, .jobsDelete "job_1700000000_42"),
   (sampleEnv, .uploadPrepare (.ok sampleUpload)),
   (sampleEnv, .cachePost "k" (.ok [("value", .str "v")]))]

/-! ## Keys -/

/-- The characters of a concatenation. -/
theorem append_data (a b : String) : (a ++ b).data = a.data ++ b.data := by
  cases a; cases b; rfl

/-- An upload key is no job key. -/
theorem upload_ne_job (a b : String) : "upload:" ++ a ≠ "job:" ++ b := by
  intro h
  have h2 := congrArg String.data h
  rw [append_data, append_data] at h2
  simp at h2

/-- A job key is no upload key. -/
theorem job_ne_upload (a b : String) : "job:" ++ a ≠ "upload:" ++ b :=
  fun h => upload_ne_job b a h.symm

/-- A job key is not the key of the work list. -/
theorem job_ne_queue (a : String) : "job:" ++ a ≠ "processing_queue" := by
  intro h
  have h2 := congrArg String.data h
  rw [append_data] at h2
  simp at h2

/-- Keys with the same head and different tails differ. -/
theorem append_left_cancel (p a b : String) (h : p ++ a = p ++ b) : a = b := by
  have h2 := congrArg String.data h
  rw [append_data, append_data] at h2
  have h3 := List.append_cancel_left h2
  cases a; cases b; simp_all

/-- The keys `job:<id>` are job keys. -/
theorem isJobKey_job (id : String) : isJobKey ("job:" ++ id) = true := by
  unfold isJobKey
  rw [append_data]
  rfl

/-- A key that is no job key differs from every `job:<id>`. -/
theorem ne_job_of_not_isJobKey (k id : String) (h : isJobKey k = false) :
    "job:" ++ id ≠ k := by
  intro hk
  rw [← hk, isJobKey_job] at h
  exact Bool.noConfusion h

/-! ## Commands and the other keys -/

/-- SET leaves the other keys alone. -/
theorem redisSet_other (up : Bool) (db : Store) (key : String) (b : Bytes) (exp : Int)
    (k : String) (h : k ≠ key) : (redisSet up db key b exp).2 k = db k := by
  unfold redisSet
  cases up <;> simp [Store.put, h]

/-- SET on a store that is reached binds the key to the string. -/
theorem redisSet_same (db : Store) (key : String) (b : Bytes) (exp : Int) :
    (redisSet true db key b exp).2 key
      = some ⟨.str b, expiryMs ((db key).bind Entry.ttl) exp⟩ := by
  simp [redisSet, Store.put]

/-- LPUSH leaves the other keys alone. -/
theorem redisLPush_other (up : Bool) (db : Store) (key v : String)
    (k : String) (h : k ≠ key) : (redisLPush up db key v).2 k = db k := by
  unfold redisLPush
  cases up
  · simp
  · simp only [Bool.not_true, Bool.false_eq_true, if_false]
    split <;> simp [Store.put, h]

/-- HSET leaves the other keys alone. -/
theorem redisHSet_other (up : Bool) (db : Store) (key : String) (fvs : List (String × String))
    (k : String) (h : k ≠ key) : (redisHSet up db key fvs).2 k = db k := by
  unfold redisHSet
  cases up
  · simp
  · simp only [Bool.not_true, Bool.false_eq_true, if_false]
    split <;> simp [Store.put, h]

/-- HSET on a key that holds a string changes nothing. -/
theorem redisHSet_string (up : Bool) (db : Store) (key : String) (fvs : List (String × String))
    (b : Bytes) (t : Option Nat) (h : db key = some ⟨.str b, t⟩) :
    (redisHSet up db key fvs).2 = db := by
  unfold redisHSet
  cases up <;> simp [h]

/-! ## Numbers read back -/

/-- The halving loop with enough fuel is the binary logarithm. -/
theorem log2Fuel_eq : ∀ fuel n, n ≤ fuel → log2Fuel fuel n = Nat.log2 n := by
  intro fuel
  induction fuel with
  | zero =>
    intro n h
    have : n = 0 := by omega
    subst this
    simp [log2Fuel, Nat.log2_zero]
  | succ k ih =>
    intro n h
    unfold log2Fuel
    by_cases h2 : n < 2
    · rw [if_pos h2, Nat.log2]
      have h3 : ¬ (n ≥ 2) := by omega
      rw [if_neg h3]
    · rw [if_neg h2, ih (n / 2) (by omega)]
      conv_rhs => rw [Nat.log2]
      have h3 : n ≥ 2 := by omega
      rw [if_pos h3]

/-- The logarithm of the model is the one of the library. -/
theorem log2_eq (n : Nat) : log2 n = Nat.log2 n := log2Fuel_eq n n (Nat.le_refl n)

/-- Doubling adds one to the logarithm. -/
theorem log2_double (n : Nat) (h : n ≠ 0) : log2 (2 * n) = log2 n + 1 := by
  rw [log2_eq, log2_eq]
  conv_lhs => rw [Nat.log2]
  have : 2 * n ≥ 2 := by omega
  simp [this]

/-- A factor two of the significand goes into the exponent. -/
theorem normalize_double (m e : Int) (h : m ≠ 0) :
    F64.normalize (2 * m) e = F64.normalize m (e + 1) := by
  unfold F64.normalize
  have h2 : 2 * m ≠ 0 := by omega
  have h3 : (2 * m).natAbs = 2 * m.natAbs := by omega
  rw [if_neg h2, if_neg h, h3, log2_double _ (by omega)]
  rw [F64.strip]
  have h4 : 2 * m % 2 = 0 := by omega
  have h5 : 2 * m / 2 = m := by omega
  rw [if_pos h4, h5]

/-- The canonical form does not depend on how the value is split. -/
theorem normalize_shift (m : Int) (h : m ≠ 0) :
    ∀ (k : Nat) (e : Int), F64.normalize (m * 2 ^ k) (e - k) = F64.normalize m e := by
  intro k
  induction k with
  | zero => intro e; simp
  | succ k ih =>
    intro e
    have h1 : m * 2 ^ (k + 1) = 2 * (m * 2 ^ k) := by ring
    have h2 : m * 2 ^ k ≠ 0 := mul_ne_zero h (pow_ne_zero k (by norm_num))
    rw [h1, normalize_double _ _ h2]
    have h3 : e - ((k + 1 : Nat) : Int) + 1 = e - k := by push_cast; ring
    rw [h3, ih]

/-- An integer below 2^53 in absolute value reads as the float64 that holds it. -/
theorem toF64_int_lt (n : Int) (h : n.natAbs < 2 ^ 53) :
    Dec.toF64 ⟨n, 0⟩ = some (F64.ofInt n) := by
  unfold Dec.toF64
  simp only [le_refl, if_true, Int.toNat_zero, pow_zero, mul_one]
  by_cases h0 : n = 0
  · subst h0
    simp [roundRatio, F64.ofInt, F64.normalize]
  have hN : n.natAbs ≠ 0 := by omega
  have hL : Nat.log2 n.natAbs < 53 := (Nat.log2_lt hN).2 h
  have hle : 2 ^ Nat.log2 n.natAbs ≤ n.natAbs := Nat.log2_self_le hN
  have hlt : n.natAbs < 2 ^ (Nat.log2 n.natAbs + 1) := Nat.lt_log2_self
  have hb : binade n.natAbs 1 = (Nat.log2 n.natAbs : Int) := by
    unfold binade
    have : log2 1 = 0 := rfl
    simp [this, log2_eq, hle]
  unfold roundRatio
  rw [if_neg hN, hb]
  generalize hLdef : Nat.log2 n.natAbs = L at *
  have hx : max ((L : Int) - 52) (-1074) = (L : Int) - 52 := by omega
  simp only [hx]
  have hx1 : (-((L : Int) - 52)).toNat = 52 - L := by omega
  have hx2 : ((L : Int) - 52).toNat = 0 := by omega
  simp only [hx1, hx2, pow_zero, mul_one, Nat.div_one, Nat.mod_one, Nat.mul_zero,
    Nat.lt_one_iff, if_true, zero_lt_one]
  have hr : n.natAbs * 2 ^ (52 - L) < 2 ^ 53 := by
    calc n.natAbs * 2 ^ (52 - L) < 2 ^ (L + 1) * 2 ^ (52 - L) :=
          Nat.mul_lt_mul_of_pos_right hlt (by positivity)
      _ = 2 ^ 53 := by rw [← pow_add]; congr 1; omega
  have hr0 : n.natAbs * 2 ^ (52 - L) ≠ 0 :=
    Nat.mul_ne_zero hN (by positivity)
  have hlr : Nat.log2 (n.natAbs * 2 ^ (52 - L)) < 53 := (Nat.log2_lt hr0).2 hr
  have hov : ¬ (1024 ≤ ((log2 (n.natAbs * 2 ^ (52 - L)) : Nat) : Int) + ((L : Int) - 52)) := by
    rw [log2_eq]; omega
  rw [if_neg hov]
  congr 1
  have hs : (if decide (n < 0) = true then -((n.natAbs * 2 ^ (52 - L) : Nat) : Int)
      else ((n.natAbs * 2 ^ (52 - L) : Nat) : Int)) = n * 2 ^ (52 - L) := by
    by_cases hneg : n < 0
    · have : (n.natAbs : Int) = -n := by omega
      simp [hneg, this]
    · have : (n.natAbs : Int) = n := by omega
      simp [hneg, this]
  rw [hs]
  have he : (L : Int) - 52 = 0 - ((52 - L : Nat) : Int) := by omega
  rw [he, normalize_shift n h0]
  rfl

/-- An integer up to 2^53 in absolute value reads as the float64 that holds it. -/
theorem toF64_int (n : Int) (h : n.natAbs ≤ 2 ^ 53) :
    Dec.toF64 ⟨n, 0⟩ = some (F64.ofInt n) := by
  by_cases h1 : n.natAbs < 2 ^ 53
  · exact toF64_int_lt n h1
  · have h2 : n = 9007199254740992 ∨ n = -9007199254740992 := by omega
    rcases h2 with h2 | h2 <;> subst h2 <;> decide

/-- Stripping factors of two keeps the value. -/
theorem strip_holds (fuel : Nat) : ∀ (m e : Int), 0 ≤ e →
    0 ≤ (F64.strip fuel m e).e ∧
      (F64.strip fuel m e).m * 2 ^ (F64.strip fuel m e).e.toNat = m * 2 ^ e.toNat := by
  induction fuel with
  | zero => intro m e he; exact ⟨he, rfl⟩
  | succ k ih =>
    intro m e he
    unfold F64.strip
    split
    · next hm =>
      have h := ih (m / 2) (e + 1) (by omega)
      refine ⟨h.1, ?_⟩
      rw [h.2]
      have h1 : (e + 1).toNat = e.toNat + 1 := by omega
      have h2 : m = 2 * (m / 2) := by omega
      rw [h1, pow_succ]
      conv_rhs => rw [h2]
      ring
    · exact ⟨he, rfl⟩

/-- The canonical dyadic of an integer holds that integer. -/
theorem ofInt_holdsInt (n : Int) : (F64.ofInt n).holdsInt n := by
  unfold F64.ofInt F64.normalize F64.holdsInt
  split
  · next h => subst h; simp
  · have h := strip_holds (log2 n.natAbs + 1) n 0 (le_refl 0)
    simpa using h

/-- The decimal picked reads back as `f` when the fallback does. -/
theorem pick_toF64 (f : F64) (dlo dhi : Dec) (lowNear : Bool) (rest : Dec)
    (h : rest.toF64 = some f) : (F64.pick f dlo dhi lowNear rest).toF64 = some f := by
  unfold F64.pick
  simp only
  split
  · next h1 =>
    simp only [Bool.and_eq_true, decide_eq_true_eq] at h1
    exact h1.1
  · split
    · next h2 => simpa using h2
    · exact h

/-- The decimal found by the search reads back as `f`. -/
theorem shortestFrom_toF64 (f : F64) (hf : f.IsFloat64) :
    ∀ fuel n, (F64.shortestFrom fuel n f).toF64 = some f := by
  intro fuel
  induction fuel with
  | zero => intro n; exact hf
  | succ k ih =>
    intro n
    unfold F64.shortestFrom
    exact pick_toF64 f _ _ _ _ (ih (n + 1))

/-- The literal written for a float64 reads back as that float64. -/
theorem shortest_toF64 (f : F64) (hf : f.IsFloat64) : f.shortest.toF64 = some f := by
  unfold F64.shortest
  split
  · next h =>
    have h0 : f.exactDec.toF64 = some ⟨0, 0⟩ := by
      unfold F64.exactDec Dec.toF64
      split <;> simp [h, roundRatio]
    have : some f = some (⟨0, 0⟩ : F64) := by rw [← hf]; exact h0
    rw [this]
    decide
  · exact shortestFrom_toF64 f hf 17 1

mutual
/-- A decoded value, marshalled and decoded again, is the value. -/
theorem unmarshal_marshal : ∀ v : GoVal, v.Decoded → unmarshal (marshal v) = v
  | .null, _ => by simp [marshal, unmarshal]
  | .bool b, _ => by simp [marshal, unmarshal]
  | .int n, h => by simp [GoVal.Decoded] at h
  | .float f, h => by
    simp only [GoVal.Decoded] at h
    simp [marshal, unmarshal, shortest_toF64 f h]
  | .str s, _ => by simp [marshal, unmarshal]
  | .arr xs, h => by
    simp only [marshal, unmarshal, GoVal.arr.injEq]
    exact unmarshalList_marshalList xs (by simpa [GoVal.Decoded] using h)
  | .obj kvs, h => by
    simp only [marshal, unmarshal, GoVal.obj.injEq]
    exact unmarshalFields_marshalFields kvs (by simpa [GoVal.Decoded] using h)
/-- The same for the elements of a slice. -/
theorem unmarshalList_marshalList :
    ∀ xs : List GoVal, GoVal.DecodedList xs → unmarshalList (marshalList xs) = xs
  | [], _ => by simp [marshalList, unmarshalList]
  | x :: xs, h => by
    simp only [GoVal.DecodedList] at h
    simp [marshalList, unmarshalList, unmarshal_marshal x h.1, unmarshalList_marshalList xs h.2]
/-- The same for the members of a map. -/
theorem unmarshalFields_marshalFields :
    ∀ kvs : List (String × GoVal), GoVal.DecodedFields kvs →
      unmarshalFields (marshalFields kvs) = kvs
  | [], _ => by simp [marshalFields, unmarshalFields]
  | (k, v) :: r, h => by
    simp only [GoVal.DecodedFields] at h
    simp [marshalFields, unmarshalFields, unmarshal_marshal v h.1,
      unmarshalFields_marshalFields r h.2]
end

/-! ## What the handlers write and read -/

/-- The key prepareFileUpload writes, on a store that is reached. -/
theorem prepare_store (env : Env) (req : FileUploadRequest) (db : Store)
    (hup : env.up 0 = true) :
    (prepareFileUpload env (.ok req) db).2 ("upload:" ++ generateJobID env)
      = some ⟨.str (.json (marshal (uploadRecord env req))),
          expiryMs ((db ("upload:" ++ generateJobID env)).bind Entry.ttl) (24 * hour)⟩ := by
  unfold prepareFileUpload
  simp only
  rw [hup, redisSet_same]
  rfl

/-- The members of the upload record as read back. -/
theorem uploadRecord_decoded (env : Env) (req : FileUploadRequest) :
    (decodeMap (.json (marshal (uploadRecord env req)))).get "filename"
        = some (.str req.FileName) ∧
    (decodeMap (.json (marshal (uploadRecord env req)))).get "filesize"
        = some (unmarshal (.num ⟨req.FileSize, 0⟩)) ∧
    (decodeMap (.json (marshal (uploadRecord env req)))).get "filetype"
        = some (.str req.FileType) ∧
    (decodeMap (.json (marshal (uploadRecord env req)))).get "status"
        = some (.str "prepared") := by
  simp [uploadRecord, marshal, marshalFields, decodeMap, unmarshalFields, unmarshal, GoVal.get,
    List.lookup]

/-- The key createProcessingJob writes, on a store that is reached. -/
theorem create_store (env : Env) (req : ProcessingRequest) (db : Store)
    (hup : env.up 0 = true) :
    (createProcessingJob env (.ok req) db).2 ("job:" ++ generateJobID env)
      = some ⟨.str (.json (marshal (jobRecord env req))),
          expiryMs ((db ("job:" ++ generateJobID env)).bind Entry.ttl) (48 * hour)⟩ := by
  unfold createProcessingJob
  simp only
  rw [redisLPush_other _ _ _ _ _ (job_ne_queue _), hup, redisSet_same]
  rfl

/-- The response of createProcessingJob to a request that binds. -/
theorem create_resp (env : Env) (req : ProcessingRequest) (db : Store) :
    (createProcessingJob env (.ok req) db).1
      = ⟨201, .obj [("job_id", .str (generateJobID env)), ("status", .str "queued")]⟩ := rfl

/-- The members of the job record as read back. -/
theorem jobRecord_decoded (env : Env) (req : ProcessingRequest) :
    (decodeMap (.json (marshal (jobRecord env req)))).get "job_id"
        = some (.str (generateJobID env)) ∧
    (decodeMap (.json (marshal (jobRecord env req)))).get "job_type"
        = some (.str req.JobType) ∧
    (decodeMap (.json (marshal (jobRecord env req)))).get "parameters"
        = some (unmarshal (marshal (mapVal req.Parameters))) ∧
    (decodeMap (.json (marshal (jobRecord env req)))).get "status"
        = some (.str "queued") ∧
    (decodeMap (.json (marshal (jobRecord env req)))).get "cancelled_at" = none := by
  simp [jobRecord, marshal, marshalFields, decodeMap, unmarshalFields, unmarshal, GoVal.get,
    List.lookup]

/-- What getJobStatus answers right after a create, on a store that is reached. -/
theorem status_after_create (env env2 : Env) (req : ProcessingRequest) (db : Store)
    (hup : env.up 0 = true) (hup2 : env2.up 0 = true) :
    (getJobStatus env2 (generateJobID env) (createProcessingJob env (.ok req) db).2).1
      = ⟨200, decodeMap (.json (marshal (jobRecord env req)))⟩ := by
  simp [getJobStatus, redisGet, hup2, create_store env req db hup]

/-- The response and the store of setCacheValue on a store that is reached. -/
theorem setCacheValue_ok (env : Env) (k : String) (data : List (String × GoVal)) (db : Store)
    (hup : env.up 0 = true) :
    setCacheValue env k (.ok data) db =
      (⟨200, .obj [("key", .str k), ("status", .str "set")]⟩,
        db.put k ⟨.str (.json (marshal ((data.lookup "value").getD .null))),
          expiryMs ((db k).bind Entry.ttl) (cacheTTL data)⟩) := by
  simp [setCacheValue, redisSet, hup]

/-- The completion of an upload that is not there. -/
theorem complete_absent (env : Env) (j : String) (db : Store) (hj : j ≠ "")
    (h : db ("upload:" ++ j) = none) :
    completeFileUpload env j db = (⟨404, errorBody "Upload job not found"⟩, db) := by
  unfold completeFileUpload redisExists
  cases hup : env.up 0 <;> simp [hj, h]

/-- The completion of an upload that is there: the key stays. -/
theorem complete_present (env : Env) (j : String) (db : Store) (hup : env.up 0 = true)
    (hj : j ≠ "") (h : db ("upload:" ++ j) ≠ none) :
    (completeFileUpload env j db).1 = completedBody j ∧
      (completeFileUpload env j db).2 ("upload:" ++ j) ≠ none := by
  unfold completeFileUpload redisExists redisHSet completedBody
  cases hk : db ("upload:" ++ j) with
  | none => exact absurd hk h
  | some e =>
    obtain ⟨v, t⟩ := e
    cases h1 : env.up 1 <;> cases v <;> simp [hj, hup, hk, Store.put]

/-- The read handlers leave the store as it is: getUploadStatus. -/
theorem getUploadStatus_store (env : Env) (j : String) (db : Store) :
    (getUploadStatus env j db).2 = db := by
  unfold getUploadStatus
  simp only
  split <;> rfl

/-- The read handlers leave the store as it is: getJobStatus. -/
theorem getJobStatus_store (env : Env) (j : String) (db : Store) :
    (getJobStatus env j db).2 = db := by
  unfold getJobStatus
  simp only
  split <;> rfl

/-- The read handlers leave the store as it is: getCacheValue. -/
theorem getCacheValue_store (env : Env) (k : String) (db : Store) :
    (getCacheValue env k db).2 = db := by
  unfold getCacheValue
  split <;> rfl

/-- A create whose SET does not reach the store leaves the job keys as they were. -/
theorem create_down (env : Env) (req : ProcessingRequest) (db : Store)
    (hdown : env.up 0 = false) (id : String) :
    (createProcessingJob env (.ok req) db).2 ("job:" ++ id) = db ("job:" ++ id) := by
  unfold createProcessingJob
  simp only
  rw [redisLPush_other _ _ _ _ _ (job_ne_queue _), hdown]
  rfl


/-! ## Request bodies -/

/-- C1, as the code has it. When the SET and the GET reach the store, for every request
that binds and whose filesize is at most 2^53 in absolute value: prepareFileUpload answers 200 with
the job ID `j` it generated, and a getUploadStatus of `j` made right after answers 200
with a record whose status is "prepared" and whose filename, filesize and filetype are
the ones submitted (the filesize as the float64 that holds it). -/
theorem prepareFileUpload_then_status (env env2 : Env) (req : FileUploadRequest)
    (db : Store) (hup : env.up 0 = true) (hup2 : env2.up 0 = true)
    (hsz : req.FileSize.natAbs ≤ 2 ^ 53) :
    (prepareFileUpload env (.ok req) db).1
      = ⟨200, .obj [("expires_at", .int (env.unix + 86400)),
          ("job_id", .str (generateJobID env)),
          ("upload_url", .str ("/upload/" ++ generateJobID env))]⟩ ∧
    (getUploadStatus env2 (generateJobID env) (prepareFileUpload env (.ok req) db).2).1.code
      = 200 ∧
    (getUploadStatus env2 (generateJobID env)
        (prepareFileUpload env (.ok req) db).2).1.body.get "status"
      = some (.str "prepared") ∧
    (getUploadStatus env2 (generateJobID env)
        (prepareFileUpload env (.ok req) db).2).1.body.get "filename"
      = some (.str req.FileName) ∧
    (getUploadStatus env2 (generateJobID env)
        (prepareFileUpload env (.ok req) db).2).1.body.get "filetype"
      = some (.str req.FileType) ∧
    (getUploadStatus env2 (generateJobID env)
        (prepareFileUpload env (.ok req) db).2).1.body.get "filesize"
      = some (.float (F64.ofInt req.FileSize)) ∧
    (F64.ofInt req.FileSize).holdsInt req.FileSize := by
  have hs := prepare_store env req db hup
  have hd := uploadRecord_decoded env req
  have hg : (getUploadStatus env2 (generateJobID env)
      (prepareFileUpload env (.ok req) db).2).1
      = ⟨200, decodeMap (.json (marshal (uploadRecord env req)))⟩ := by
    simp [getUploadStatus, redisGet, hup2, hs]
  have hf : unmarshal (.num ⟨req.FileSize, 0⟩) = .float (F64.ofInt req.FileSize) := by
    simp [unmarshal, toF64_int req.FileSize hsz]
  rw [hg]
  refine ⟨rfl, rfl, hd.2.2.2, hd.1, hd.2.2.1, ?_, ofInt_holdsInt _⟩
  rw [← hf]
  exact hd.2.1

/-- C1 at the request `sampleUpload` on the empty store. -/
theorem prepareFileUpload_then_status_witness :
    (getUploadStatus sampleEnv (generateJobID sampleEnv)
        (prepareFileUpload sampleEnv (.ok sampleUpload) Store.empty).2).1.code = 200 ∧
    (getUploadStatus sampleEnv (generateJobID sampleEnv)
        (prepareFileUpload sampleEnv (.ok sampleUpload) Store.empty).2).1.body.get "status"
      = some (.str "prepared") ∧
    (getUploadStatus sampleEnv (generateJobID sampleEnv)
        (prepareFileUpload sampleEnv (.ok sampleUpload) Store.empty).2).1.body.get "filename"
      = some (.str sampleUpload.FileName) ∧
    (getUploadStatus sampleEnv (generateJobID sampleEnv)
        (prepareFileUpload sampleEnv (.ok sampleUpload) Store.empty).2).1.body.get "filetype"
      = some (.str sampleUpload.FileType) ∧
    (getUploadStatus sampleEnv (generateJobID sampleEnv)
        (prepareFileUpload sampleEnv (.ok sampleUpload) Store.empty).2).1.body.get "filesize"
      = some (.float (F64.ofInt sampleUpload.FileSize)) ∧
    (F64.ofInt sampleUpload.FileSize).holdsInt sampleUpload.FileSize :=
  (prepareFileUpload_then_status sampleEnv sampleEnv sampleUpload Store.empty rfl rfl
    (by decide)).2

/-- C1 fails as stated: for the filesize 9007199254740993 (2^53 + 1, an int64) the
record read back has the filesize 2^53 = 9007199254740992, not the one submitted. -/
theorem prepareFileUpload_then_status_counterexample :
    (prepareFileUpload sampleEnv (.ok bigUpload) Store.empty).1.code = 200 ∧
    (getUploadStatus sampleEnv (generateJobID sampleEnv)
        (prepareFileUpload sampleEnv (.ok bigUpload) Store.empty).2).1.body.get "filesize"
      = some (.float ⟨1, 53⟩) ∧
    F64.holdsInt ⟨1, 53⟩ 9007199254740992 ∧
    ¬ F64.holdsInt ⟨1, 53⟩ bigUpload.FileSize := by
  refine ⟨rfl, rfl, by decide, by decide⟩

/-- C4. For every store, with the EXISTS of each request answered, and every non-empty
job ID `j`: when no key `upload:<j>` exists, completeFileUpload answers 404 and leaves the store as it was; when the key
exists, it answers 200 with job_id `j` and status "completed", and so does a second
completeFileUpload of `j` made right after; an empty (or missing) job_id form field
is answered 400. -/
theorem completeFileUpload_contract (env env2 : Env) (j : String) (db : Store)
    (hup : env.up 0 = true) (hup2 : env2.up 0 = true) (hj : j ≠ "") :
    (db ("upload:" ++ j) = none →
        (completeFileUpload env j db).1.code = 404 ∧ (completeFileUpload env j db).2 = db) ∧
    (db ("upload:" ++ j) ≠ none →
        (completeFileUpload env j db).1 = completedBody j ∧
        (completeFileUpload env2 j (completeFileUpload env j db).2).1 = completedBody j) ∧
    (completeFileUpload env "" db).1.code = 400 := by
  refine ⟨fun h => ?_, fun h => ?_, ?_⟩
  · rw [complete_absent env j db hj h]; exact ⟨rfl, rfl⟩
  · have h1 := complete_present env j db hup hj h
    exact ⟨h1.1, (complete_present env2 j _ hup2 hj h1.2).1⟩
  · simp [completeFileUpload]

/-- C4 on the store that holds the upload `job_1700000000_42` and no upload `nope`. -/
theorem completeFileUpload_contract_witness :
    ((completeFileUpload sampleEnv "job_1700000000_42" sampleStore).1
          = completedBody "job_1700000000_42" ∧
      (completeFileUpload sampleEnv "job_1700000000_42"
          (completeFileUpload sampleEnv "job_1700000000_42" sampleStore).2).1
          = completedBody "job_1700000000_42") ∧
    (completeFileUpload sampleEnv "nope" sampleStore).1.code = 404 ∧
    (completeFileUpload sampleEnv "" sampleStore).1.code = 400 :=
  ⟨(completeFileUpload_contract sampleEnv sampleEnv "job_1700000000_42" sampleStore
      rfl rfl (by decide)).2.1 (Option.isSome_iff_ne_none.mp (by decide)),
    ((completeFileUpload_contract sampleEnv sampleEnv "nope" sampleStore
      rfl rfl (by decide)).1 rfl).1,
    (completeFileUpload_contract sampleEnv sampleEnv "nope" sampleStore
      rfl rfl (by decide)).2.2⟩

/-! ## Jobs -/

/-- C2. When the SET and the GET reach the store, for every request that binds, with job type `t` and
parameter map `p` (a map as the JSON decoder gives it): createProcessingJob answers 201
with status "queued" and the job ID `j` it generated, and a getJobStatus of `j` made right
after answers 200 with a record whose job_id is `j`, job_type is `t`, parameters are `p`
and status is "queued". -/
theorem createProcessingJob_then_status (env env2 : Env) (req : ProcessingRequest)
    (db : Store) (hup : env.up 0 = true) (hup2 : env2.up 0 = true)
    (hp : (mapVal req.Parameters).Decoded) :
    (createProcessingJob env (.ok req) db).1
      = ⟨201, .obj [("job_id", .str (generateJobID env)), ("status", .str "queued")]⟩ ∧
    (getJobStatus env2 (generateJobID env) (createProcessingJob env (.ok req) db).2).1.code
      = 200 ∧
    (getJobStatus env2 (generateJobID env)
        (createProcessingJob env (.ok req) db).2).1.body.get "job_id"
      = some (.str (generateJobID env)) ∧
    (getJobStatus env2 (generateJobID env)
        (createProcessingJob env (.ok req) db).2).1.body.get "job_type"
      = some (.str req.JobType) ∧
    (getJobStatus env2 (generateJobID env)
        (createProcessingJob env (.ok req) db).2).1.body.get "parameters"
      = some (mapVal req.Parameters) ∧
    (getJobStatus env2 (generateJobID env)
        (createProcessingJob env (.ok req) db).2).1.body.get "status"
      = some (.str "queued") := by
  have hd := jobRecord_decoded env req
  rw [status_after_create env env2 req db hup hup2]
  refine ⟨create_resp env req db, rfl, hd.1, hd.2.1, ?_, hd.2.2.2.1⟩
  rw [← unmarshal_marshal _ hp]
  exact hd.2.2.1

/-- C2 at the request `sampleJob` on the empty store. -/
theorem createProcessingJob_then_status_witness :
    (createProcessingJob sampleEnv (.ok sampleJob) Store.empty).1
      = ⟨201, .obj [("job_id", .str (generateJobID sampleEnv)), ("status", .str "queued")]⟩ ∧
    (getJobStatus sampleEnv (generateJobID sampleEnv)
        (createProcessingJob sampleEnv (.ok sampleJob) Store.empty).2).1.code = 200 ∧
    (getJobStatus sampleEnv (generateJobID sampleEnv)
        (createProcessingJob sampleEnv (.ok sampleJob) Store.empty).2).1.body.get "job_id"
      = some (.str (generateJobID sampleEnv)) ∧
    (getJobStatus sampleEnv (generateJobID sampleEnv)
        (createProcessingJob sampleEnv (.ok sampleJob) Store.empty).2).1.body.get "job_type"
      = some (.str sampleJob.JobType) ∧
    (getJobStatus sampleEnv (generateJobID sampleEnv)
        (createProcessingJob sampleEnv (.ok sampleJob) Store.empty).2).1.body.get "parameters"
      = some (mapVal sampleJob.Parameters) ∧
    (getJobStatus sampleEnv (generateJobID sampleEnv)
        (createProcessingJob sampleEnv (.ok sampleJob) Store.empty).2).1.body.get "status"
      = some (.str "queued") :=
  createProcessingJob_then_status sampleEnv sampleEnv sampleJob Store.empty rfl rfl
    (by
      simp only [sampleJob, mapVal, GoVal.Decoded, GoVal.DecodedFields, GoVal.DecodedList,
        and_true, true_and]
      decide)

/-- C3, the code on a record written by createProcessingJob. With the store reached:
cancelJob of the job answers 200 with status "cancelled" and leaves the store as it was
(the HSET is refused, the key holds a string), so a getJobStatus made right after still
answers with status "queued" and with no cancelled_at member. -/
theorem cancelJob_after_create (env env1 env2 : Env) (req : ProcessingRequest) (db : Store)
    (hup : env.up 0 = true) (hup1 : env1.up 0 = true) (hup2 : env2.up 0 = true) :
    (cancelJob env1 (generateJobID env) (createProcessingJob env (.ok req) db).2).1
      = ⟨200, .obj [("job_id", .str (generateJobID env)), ("status", .str "cancelled")]⟩ ∧
    (cancelJob env1 (generateJobID env) (createProcessingJob env (.ok req) db).2).2
      = (createProcessingJob env (.ok req) db).2 ∧
    (getJobStatus env2 (generateJobID env)
      (cancelJob env1 (generateJobID env) (createProcessingJob env (.ok req) db).2).2).1.code
      = 200 ∧
    (getJobStatus env2 (generateJobID env)
      (cancelJob env1 (generateJobID env)
        (createProcessingJob env (.ok req) db).2).2).1.body.get "status"
      = some (.str "queued") ∧
    (getJobStatus env2 (generateJobID env)
      (cancelJob env1 (generateJobID env)
        (createProcessingJob env (.ok req) db).2).2).1.body.get "cancelled_at"
      = none := by
  have hs := create_store env req db hup
  have hd := jobRecord_decoded env req
  have hc : cancelJob env1 (generateJobID env) (createProcessingJob env (.ok req) db).2
      = (⟨200, .obj [("job_id", .str (generateJobID env)), ("status", .str "cancelled")]⟩,
         (createProcessingJob env (.ok req) db).2) := by
    unfold cancelJob
    simp only [redisExists, hup1, hs, redisHSet_string _ _ _ _ _ _ hs]
    rfl
  rw [hc]
  simp only
  rw [status_after_create env env2 req db hup hup2]
  exact ⟨trivial, trivial, rfl, hd.2.2.2.1, hd.2.2.2.2⟩

/-- C3 at the job created by `sampleJob` on the empty store. -/
theorem cancelJob_after_create_witness :
    (cancelJob sampleEnv (generateJobID sampleEnv)
        (createProcessingJob sampleEnv (.ok sampleJob) Store.empty).2).1
      = ⟨200, .obj [("job_id", .str (generateJobID sampleEnv)),
          ("status", .str "cancelled")]⟩ ∧
    (getJobStatus sampleEnv (generateJobID sampleEnv)
      (cancelJob sampleEnv (generateJobID sampleEnv)
        (createProcessingJob sampleEnv (.ok sampleJob) Store.empty).2).2).1.body.get "status"
      = some (.str "queued") ∧
    (getJobStatus sampleEnv (generateJobID sampleEnv)
      (cancelJob sampleEnv (generateJobID sampleEnv)
        (createProcessingJob sampleEnv (.ok sampleJob) Store.empty).2).2).1.body.get
        "cancelled_at"
      = none :=
  have h := cancelJob_after_create sampleEnv sampleEnv sampleEnv sampleJob Store.empty
    rfl rfl rfl
  ⟨h.1, h.2.2.2.1, h.2.2.2.2⟩

/-! ## Cache -/

/-- C5, as the code has it. When the SET and the GET reach the store, for every key `k` and every body
whose value member is `v`: setCacheValue answers 200, and a getCacheValue of `k` made
right after answers 200 with key `k` and, as value, the string that spells the JSON
text of `v`. -/
theorem cache_get_after_set (env env2 : Env) (k : String) (data : List (String × GoVal))
    (v : GoVal) (db : Store) (hup : env.up 0 = true) (hup2 : env2.up 0 = true)
    (hv : data.lookup "value" = some v) :
    (setCacheValue env k (.ok data) db).1.code = 200 ∧
    (getCacheValue env2 k (setCacheValue env k (.ok data) db).2).1 =
      ⟨200, .obj [("key", .str k), ("value", .str (String.mk (marshal v).render))]⟩ := by
  rw [setCacheValue_ok env k data db hup]
  simp [getCacheValue, redisGet, hup2, Store.put, hv, Bytes.text]

/-- C5 at the value 42 under the key `k`: the value of the get is the string "42". -/
theorem cache_get_after_set_witness :
    (setCacheValue sampleEnv "k" (.ok [("value", .float ⟨21, 1⟩)]) Store.empty).1.code = 200 ∧
    (getCacheValue sampleEnv "k"
        (setCacheValue sampleEnv "k" (.ok [("value", .float ⟨21, 1⟩)]) Store.empty).2).1 =
      ⟨200, .obj [("key", .str "k"),
        ("value", .str (String.mk (marshal (.float ⟨21, 1⟩)).render))]⟩ ∧
    String.mk (marshal (.float ⟨21, 1⟩)).render = "42" :=
  ⟨(cache_get_after_set sampleEnv sampleEnv "k" [("value", .float ⟨21, 1⟩)] (.float ⟨21, 1⟩)
      Store.empty rfl rfl rfl).1,
    (cache_get_after_set sampleEnv sampleEnv "k" [("value", .float ⟨21, 1⟩)] (.float ⟨21, 1⟩)
      Store.empty rfl rfl rfl).2, by decide⟩

/-- C5 fails as stated: after the value "hello" is set under `k`, the value of the get
is the seven characters of its JSON text, quotes included, not the string the client set. -/
theorem cache_get_after_set_counterexample :
    (setCacheValue sampleEnv "k" (.ok [("value", .str "hello")]) Store.empty).1.code = 200 ∧
    (getCacheValue sampleEnv "k"
        (setCacheValue sampleEnv "k" (.ok [("value", .str "hello")]) Store.empty).2).1.body.get
      "value" = some (.str "\"hello\"") ∧
    (getCacheValue sampleEnv "k"
        (setCacheValue sampleEnv "k" (.ok [("value", .str "hello")]) Store.empty).2).1.body.get
      "value" ≠ some (.str "hello") := by
  have h : (getCacheValue sampleEnv "k"
        (setCacheValue sampleEnv "k" (.ok [("value", .str "hello")]) Store.empty).2).1.body.get
      "value" = some (.str "\"hello\"") := rfl
  refine ⟨rfl, h, ?_⟩
  rw [h]
  simp

/-- C6. For every store and key, with the DEL and the GET answered: deleteCacheValue of an absent key answers 404 and
leaves the store as it was; of a present key it answers 200 with the key and status
"deleted", removes that key and no other, and a getCacheValue of the key made after it
answers 404. -/
theorem deleteCacheValue_contract (env env2 : Env) (k : String) (db : Store)
    (hup : env.up 0 = true) (hup2 : env2.up 0 = true) :
    (db k = none →
        (deleteCacheValue env k db).1.code = 404 ∧ (deleteCacheValue env k db).2 = db) ∧
    (db k ≠ none →
        (deleteCacheValue env k db).1
          = ⟨200, .obj [("key", .str k), ("status", .str "deleted")]⟩ ∧
        (deleteCacheValue env k db).2 k = none ∧
        (∀ k2, k2 ≠ k → (deleteCacheValue env k db).2 k2 = db k2) ∧
        (getCacheValue env2 k (deleteCacheValue env k db).2).1.code = 404) := by
  unfold deleteCacheValue redisDel getCacheValue redisGet
  cases hk : db k with
  | none => simp [hup]
  | some e =>
    simp [hup, hup2, Store.remove]
    intro k2 h2
    simp [h2]

/-- C6 on the store that holds the key `upload:job_1700000000_42` and no key `nope`. -/
theorem deleteCacheValue_contract_witness :
    ((deleteCacheValue sampleEnv "upload:job_1700000000_42" sampleStore).1
        = ⟨200, .obj [("key", .str "upload:job_1700000000_42"), ("status", .str "deleted")]⟩ ∧
      (deleteCacheValue sampleEnv "upload:job_1700000000_42" sampleStore).2
        "upload:job_1700000000_42" = none ∧
      (getCacheValue sampleEnv "upload:job_1700000000_42"
        (deleteCacheValue sampleEnv "upload:job_1700000000_42" sampleStore).2).1.code = 404) ∧
    (deleteCacheValue sampleEnv "nope" sampleStore).1.code = 404 ∧
    (deleteCacheValue sampleEnv "nope" sampleStore).2 = sampleStore :=
  have h := (deleteCacheValue_contract sampleEnv sampleEnv "upload:job_1700000000_42"
    sampleStore rfl rfl).2 (Option.isSome_iff_ne_none.mp (by decide))
  ⟨⟨h.1, h.2.1, h.2.2.2⟩,
    (deleteCacheValue_contract sampleEnv sampleEnv "nope" sampleStore rfl rfl).1 rfl⟩

/-- C7, as the code has it. When the SET reaches the store: when the body has no ttl member
that is a number, the entry is stored with 3600 seconds to live; when ttl is a number
whose integer part (the number with its fraction dropped) is `s`, from 1 to 9223372036,
the entry is stored with exactly `s` seconds to live. -/
theorem setCacheValue_ttl (env : Env) (k : String) (data : List (String × GoVal))
    (db : Store) (hup : env.up 0 = true) :
    ((∀ f, data.lookup "ttl" ≠ some (.float f)) →
      ((setCacheValue env k (.ok data) db).2 k).map Entry.ttl = some (some (3600 * 1000))) ∧
    (∀ f, data.lookup "ttl" = some (.float f) → 1 ≤ f.toInt64 → f.toInt64 ≤ 9223372036 →
      ((setCacheValue env k (.ok data) db).2 k).map Entry.ttl
        = some (some (f.toInt64.toNat * 1000))) := by
  rw [setCacheValue_ok env k data db hup]
  constructor
  · intro h
    have hd : cacheTTL data = hour := by
      unfold cacheTTL
      split
      · next f hf => exact absurd hf (h f)
      · rfl
    simp [Store.put, hd, expiryMs, hour, second]
  · intro f hf h1 h2
    have hd : cacheTTL data = f.toInt64 * 1000000000 := by
      unfold cacheTTL
      rw [hf]
      simp only [wrap64, second]
      omega
    simp only [Store.put, if_true, hd, Option.map_some', Option.some.injEq, expiryMs, second]
    have e1 : (0:Int) < f.toInt64 * 1000000000 := by omega
    have e2 : ¬ (f.toInt64 * 1000000000 < 1000000000 ∨
        f.toInt64 * 1000000000 % 1000000000 ≠ 0) := by
      omega
    rw [if_pos e1, if_neg e2]
    congr 2
    omega

/-- C7 at a body with ttl 60, at a body with ttl 2.5 and at a body with no ttl. -/
theorem setCacheValue_ttl_witness :
    ((setCacheValue sampleEnv "k" (.ok [("ttl", .float ⟨15, 2⟩), ("value", .str "x")])
        Store.empty).2 "k").map Entry.ttl = some (some (60 * 1000)) ∧
    ((setCacheValue sampleEnv "k" (.ok [("ttl", .float ⟨5, -1⟩), ("value", .str "x")])
        Store.empty).2 "k").map Entry.ttl
      = some (some ((F64.toInt64 ⟨5, -1⟩).toNat * 1000)) ∧
    F64.toInt64 ⟨5, -1⟩ = 2 ∧
    ((setCacheValue sampleEnv "k" (.ok [("value", .str "x")])
        Store.empty).2 "k").map Entry.ttl = some (some (3600 * 1000)) :=
  ⟨(setCacheValue_ttl sampleEnv "k" [("ttl", .float ⟨15, 2⟩), ("value", .str "x")]
      Store.empty rfl).2 ⟨15, 2⟩ rfl (by decide) (by decide),
    (setCacheValue_ttl sampleEnv "k" [("ttl", .float ⟨5, -1⟩), ("value", .str "x")]
      Store.empty rfl).2 ⟨5, -1⟩ rfl (by decide) (by decide),
    by decide,
    (setCacheValue_ttl sampleEnv "k" [("value", .str "x")]
      Store.empty rfl).1 (fun _ h => Option.noConfusion h)⟩

/-- C7 fails as stated: with ttl 1.5 the entry is stored with 1000 milliseconds to live,
which is not 1.5 seconds (1500 milliseconds). -/
theorem setCacheValue_ttl_counterexample :
    ((setCacheValue sampleEnv "k" (.ok [("ttl", .float ⟨3, -1⟩), ("value", .str "x")])
        Store.empty).2 "k").map Entry.ttl = some (some 1000) ∧
    ¬ F64.isMillis ⟨3, -1⟩ 1000 ∧ F64.isMillis ⟨3, -1⟩ 1500 := by
  refine ⟨rfl, by decide, by decide⟩

/-- C9, the code at a store command that fails. When the one command of setCacheValue or
of deleteCacheValue does not reach the store, the handler answers 500; when the SET of
prepareFileUpload or of createProcessingJob does not reach the store, the handler
still answers 200, respectively 201, and the key of the record is as it was before. -/
theorem store_error_responses (env : Env) (upload : FileUploadRequest)
    (job : ProcessingRequest) (k : String) (data : List (String × GoVal)) (db : Store)
    (hdown : env.up 0 = false) :
    (setCacheValue env k (.ok data) db).1.code = 500 ∧
    (deleteCacheValue env k db).1.code = 500 ∧
    (prepareFileUpload env (.ok upload) db).1.code = 200 ∧
    (prepareFileUpload env (.ok upload) db).2 ("upload:" ++ generateJobID env)
      = db ("upload:" ++ generateJobID env) ∧
    (createProcessingJob env (.ok job) db).1.code = 201 ∧
    (createProcessingJob env (.ok job) db).2 ("job:" ++ generateJobID env)
      = db ("job:" ++ generateJobID env) := by
  refine ⟨?_, ?_, rfl, ?_, rfl, create_down env job db hdown _⟩
  · simp [setCacheValue, redisSet, hdown]
  · simp [deleteCacheValue, redisDel, hdown]
  · simp [prepareFileUpload, redisSet, hdown]

/-- C9 at the requests of the examples on the empty store, with the store not reached:
the upload is answered 200 and the job 201, and neither is found afterwards. -/
theorem store_error_responses_witness :
    (setCacheValue downEnv "k" (.ok [("value", .str "v")]) Store.empty).1.code = 500 ∧
    (deleteCacheValue downEnv "k" Store.empty).1.code = 500 ∧
    (prepareFileUpload downEnv (.ok sampleUpload) Store.empty).1.code = 200 ∧
    (createProcessingJob downEnv (.ok sampleJob) Store.empty).1.code = 201 ∧
    (getUploadStatus sampleEnv (generateJobID downEnv)
      (prepareFileUpload downEnv (.ok sampleUpload) Store.empty).2).1.code = 404 ∧
    (getJobStatus sampleEnv (generateJobID downEnv)
      (createProcessingJob downEnv (.ok sampleJob) Store.empty).2).1.code = 404 :=
  have h := store_error_responses downEnv sampleUpload sampleJob "k" [("value", .str "v")]
    Store.empty rfl
  ⟨h.1, h.2.1, h.2.2.1, h.2.2.2.2.1, by decide, by decide⟩

/-! ## Job records in the store -/

/-- The record createProcessingJob writes is a job record. -/
theorem jobRecord_isJobRecord (env : Env) (req : ProcessingRequest) (t : Option Nat) :
    isJobRecord ⟨.str (.json (marshal (jobRecord env req))), t⟩ = true := by
  simp only [isJobRecord, jobRecord, marshal, marshalFields, decodeMap, unmarshalFields,
    unmarshal, GoVal.get, List.lookup]
  simp

/-- A job record is held as a string. -/
theorem isJobRecord_str (e : Entry) (h : isJobRecord e = true) :
    ∃ b t, e = ⟨.str b, t⟩ := by
  obtain ⟨v, t⟩ := e
  cases v with
  | str b => exact ⟨b, t, rfl⟩
  | hash f => simp [isJobRecord] at h
  | list l => simp [isJobRecord] at h

/-- A create leaves the keys of the other jobs alone. -/
theorem create_other (env : Env) (req : ProcessingRequest) (db : Store) (id : String)
    (h : id ≠ generateJobID env) :
    (createProcessingJob env (.ok req) db).2 ("job:" ++ id) = db ("job:" ++ id) := by
  unfold createProcessingJob
  simp only
  rw [redisLPush_other _ _ _ _ _ (job_ne_queue _),
    redisSet_other _ _ _ _ _ _ (fun hk => h (append_left_cancel _ _ _ hk))]

/-- A cancel changes nothing in a store whose job keys hold job records. -/
theorem cancel_store (env : Env) (j : String) (db : Store) (hdb : JobKeysOk db) :
    (cancelJob env j db).2 = db := by
  unfold cancelJob
  simp only
  cases hk : db ("job:" ++ j) with
  | none =>
    cases hup : env.up 0 <;> simp [redisExists, hk]
  | some e =>
    obtain ⟨b, t, he⟩ := isJobRecord_str e (hdb j e hk)
    subst he
    cases hup : env.up 0
    · simp [redisExists]
    · simp [redisExists, hk, redisHSet_string _ _ _ _ _ _ hk]

/-- A completion leaves the job keys alone. -/
theorem complete_other (env : Env) (j : String) (db : Store) (id : String) :
    (completeFileUpload env j db).2 ("job:" ++ id) = db ("job:" ++ id) := by
  unfold completeFileUpload
  split
  · rfl
  · simp only
    split
    · rfl
    · rfl
    · exact redisHSet_other _ _ _ _ _ (job_ne_upload _ _)

/-- A prepare leaves the job keys alone. -/
theorem prepare_other (env : Env) (body : Except String FileUploadRequest) (db : Store)
    (id : String) :
    (prepareFileUpload env body db).2 ("job:" ++ id) = db ("job:" ++ id) := by
  unfold prepareFileUpload
  split
  · rfl
  · exact redisSet_other _ _ _ _ _ _ (job_ne_upload _ _)

/-- A cache set leaves the other keys alone. -/
theorem setCache_other (env : Env) (key : String)
    (body : Except String (List (String × GoVal))) (db : Store) (k : String) (h : k ≠ key) :
    (setCacheValue env key body db).2 k = db k := by
  cases body with
  | error msg => rfl
  | ok data =>
    cases hup : env.up 0
    · simp [setCacheValue, redisSet, hup]
    · rw [setCacheValue_ok env key data db hup]
      simp [Store.put, h]

/-- A cache delete leaves the other keys alone. -/
theorem deleteCache_other (env : Env) (key : String) (db : Store) (k : String) (h : k ≠ key) :
    (deleteCacheValue env key db).2 k = db k := by
  unfold deleteCacheValue redisDel
  cases env.up 0
  · simp
  · cases hk : db key with
    | none => simp [hk]
    | some e => simp [hk, Store.remove, h]

/-- What a request does to a key `job:<id>`: it leaves it as it is, or it is the create
request that writes its record there. -/
theorem handle_job_key (env : Env) (r : Request) (db : Store) (hdb : JobKeysOk db)
    (hr : r.cacheOnJobKey = false) (id : String) :
    (handle env r db).2 ("job:" ++ id) = db ("job:" ++ id) ∨
    ∃ req t, (handle env r db).2 ("job:" ++ id)
      = some ⟨.str (.json (marshal (jobRecord env req))), t⟩ := by
  cases r with
  | uploadPrepare body => exact Or.inl (prepare_other env body db id)
  | uploadComplete j => exact Or.inl (complete_other env j db id)
  | uploadStatus j =>
    left
    show (getUploadStatus env j db).2 _ = _
    rw [getUploadStatus_store]
  | jobsCreate body =>
    cases body with
    | error msg => exact Or.inl rfl
    | ok req =>
      cases hup : env.up 0
      · exact Or.inl (create_down env req db hup id)
      · by_cases hid : id = generateJobID env
        · right
          subst hid
          exact ⟨req, _, create_store env req db hup⟩
        · exact Or.inl (create_other env req db id hid)
  | jobsGet j =>
    left
    show (getJobStatus env j db).2 _ = _
    rw [getJobStatus_store]
  | jobsDelete j =>
    left
    show (cancelJob env j db).2 _ = _
    rw [cancel_store env j db hdb]
  | cacheGet k =>
    left
    show (getCacheValue env k db).2 _ = _
    rw [getCacheValue_store]
  | cachePost k body =>
    exact Or.inl (setCache_other env k body db _ (ne_job_of_not_isJobKey k id hr))
  | cacheDelete k =>
    exact Or.inl (deleteCache_other env k db _ (ne_job_of_not_isJobKey k id hr))
  | compress => exact Or.inl rfl
  | resizeImage => exact Or.inl rfl
  | convertFormat => exact Or.inl rfl

/-- One request keeps the job keys in order. -/
theorem handle_keeps (env : Env) (r : Request) (db : Store) (hdb : JobKeysOk db)
    (hr : r.cacheOnJobKey = false) : JobKeysOk (handle env r db).2 := by
  intro id e he
  rcases handle_job_key env r db hdb hr id with h | ⟨req, t, h⟩
  · rw [h] at he
    exact hdb id e he
  · rw [h] at he
    cases he
    exact jobRecord_isJobRecord env req t

/-- A sequence of requests keeps the job keys in order. -/
theorem run_keeps : ∀ (trace : List (Env × Request)) (db : Store), JobKeysOk db →
    (∀ p ∈ trace, p.2.cacheOnJobKey = false) → JobKeysOk (run db trace)
  | [], db, hdb, _ => hdb
  | (env, r) :: rest, db, hdb, h => by
    unfold run
    exact run_keeps rest _
      (handle_keeps env r db hdb (h (env, r) (List.mem_cons_self _ _)))
      (fun p hp => h p (List.mem_cons_of_mem _ hp))

/-- C10, as the code has it. In every store reached from the empty store by a sequence of
requests to the handlers of which no cache set or cache delete names a key of the form
`job:<id>`, every value under a key `job:<id>` is a job record with status "queued" or
"cancelled", and no further such request removes a key `job:<id>`. -/
theorem job_records_invariant (trace : List (Env × Request)) (env : Env) (r : Request)
    (h : ∀ p ∈ trace, p.2.cacheOnJobKey = false) (hr : r.cacheOnJobKey = false) :
    JobKeysOk (run Store.empty trace) ∧
    ∀ id, run Store.empty trace ("job:" ++ id) ≠ none →
      (handle env r (run Store.empty trace)).2 ("job:" ++ id) ≠ none := by
  have hinv : JobKeysOk (run Store.empty trace) :=
    run_keeps trace Store.empty (fun _ _ he => by simp [Store.empty] at he) h
  refine ⟨hinv, fun id hid => ?_⟩
  rcases handle_job_key env r _ hinv hr id with h1 | ⟨req, t, h1⟩
  · rw [h1]; exact hid
  · rw [h1]; simp

/-- C10 at the requests of `sampleTrace`, followed by a cache delete of the key `k`. -/
theorem job_records_invariant_witness :
    JobKeysOk (run Store.empty sampleTrace) ∧
    (handle sampleEnv (.cacheDelete "k") (run Store.empty sampleTrace)).2
      ("job:" ++ "job_1700000000_42") ≠ none :=
  have h := job_records_invariant sampleTrace sampleEnv (.cacheDelete "k")
    (by decide) (by decide)
  ⟨h.1, h.2 "job_1700000000_42" (Option.isSome_iff_ne_none.mp (by decide))⟩

/-- C10 fails as stated: a cache set under the key `job:1` stores the JSON text `42`
there, which is no job record, and a cache delete of the key of a job that was created
removes its record. -/
theorem job_records_invariant_counterexample :
    ((run Store.empty
        [(sampleEnv, .cachePost "job:1" (.ok [("value", .float ⟨21, 1⟩)]))] "job:1").map
      isJobRecord) = some false ∧
    ((run Store.empty [(sampleEnv, .jobsCreate (.ok sampleJob))]
        "job:job_1700000000_42").map isJobRecord) = some true ∧
    (run Store.empty [(sampleEnv, .jobsCreate (.ok sampleJob)),
        (sampleEnv, .cacheDelete "job:job_1700000000_42")]
        "job:job_1700000000_42").isNone = true := by
  refine ⟨by decide, by decide, by decide⟩

end GoServices
